import Mathlib

/-
Formal model of the PantryCopilot CMAB recommender subsystem
(backend/src/services/cmab_service.py, backend/src/services/cmab_manager.py,
backend/src/services/recommendation_service.py) and theorems about its
update rule, selection policy, cold-start predicate, serialization
round-trip and feedback handling.

Embedding conventions:
- Python floats are modelled as rationals (ℚ); the claims under study are
  order/field algebra, not rounding behaviour.
- The arm_stats dict is created in CMABRecommender.__init__ with the key set
  RECIPE_CATEGORIES and no operation ever adds or removes a key, so it is
  modelled as a total function String → CMABStats together with explicit
  membership guards wherever the code tests membership or indexes the dict.
- Random draws (random.random() in select_arms, random.betavariate in
  sample_theta) are passed in as explicit parameters (draw, theta).
- A Python KeyError is modelled by an Option result (none = exception).
- datetime values (updated_at) are irrelevant to the studied claims and are
  dropped from the serialized snapshot model.
-/

/-- The fixed arm taxonomy, RECIPE_CATEGORIES in cmab_service.py. -/
def RECIPE_CATEGORIES : List String :=
  ["italian", "asian", "mexican", "american", "mediterranean", "indian",
   "quick_meals", "healthy", "comfort_food", "vegetarian", "desserts",
   "breakfast", "salads"]

/-- Per-arm statistics, class CMABStats (fields in declaration order of
__init__). -/
structure CMABStats where
  alpha : ℚ
  beta : ℚ
  total_pulls : ℕ
  total_reward : ℚ
  cooked_count : ℕ
  upvote_count : ℕ
  downvote_count : ℕ
deriving DecidableEq

/-- CMABStats.__init__: uniform prior Beta(1,1), zero counters. -/
def CMABStats.init : CMABStats := ⟨1, 1, 0, 0, 0, 0, 0⟩

/-- CMABStats.get_mean: alpha / (alpha + beta). -/
def CMABStats.get_mean (s : CMABStats) : ℚ := s.alpha / (s.alpha + s.beta)

/-- Context snapshot, class RecipeContext. The embedded operations below
receive it exactly as the Python code does; none of them reads it. -/
structure RecipeContext where
  has_expiring_items : Bool
  expiring_item_count : ℕ
  inventory_diversity : ℚ
  time_of_day : String
  day_of_week : ℕ
  is_weekend : Bool

/-- The recommender state, class CMABRecommender. The arm_stats dict is the
function; its key set is invariantly RECIPE_CATEGORIES (see header note). -/
structure CMABRecommender where
  epsilon : ℚ
  cold_start_pulls : ℕ
  arm_stats : String → CMABStats

/-- CMABRecommender.__init__(epsilon, cold_start_pulls): every category of
the taxonomy gets a fresh CMABStats(). Defaults are epsilon=0.1 and
cold_start_pulls=10 at the call sites that use them. -/
def CMABRecommender.init (epsilon : ℚ) (cold_start_pulls : ℕ) : CMABRecommender :=
  ⟨epsilon, cold_start_pulls, fun _ => CMABStats.init⟩

/-- CMABRecommender.update(category, reward, context): early return when the
category is not a key of arm_stats; otherwise increment total_pulls, add the
raw reward to total_reward, and move alpha/beta by the clamped normalized
reward (reward + 1) / 3. The context argument is unused by the code. -/
def CMABRecommender.update (m : CMABRecommender) (category : String)
    (reward : ℚ) : CMABRecommender :=
  if category ∈ RECIPE_CATEGORIES then
    let stats := m.arm_stats category
    let normalized_reward := max 0 (min 1 ((reward + 1) / 3))
    ⟨m.epsilon, m.cold_start_pulls, fun c =>
      if c = category then
        ⟨stats.alpha + normalized_reward,
         stats.beta + (1 - normalized_reward),
         stats.total_pulls + 1,
         stats.total_reward + reward,
         stats.cooked_count, stats.upvote_count, stats.downvote_count⟩
      else m.arm_stats c⟩
  else m

/-- ASCII lowercasing of a string, the Python str.lower() used on feedback
types (which are ASCII identifiers). -/
def lowerStr (s : String) : String := ⟨s.data.map Char.toLower⟩

/-- The reward_map lookup reward_map.get(feedback_type.lower(), 0.0) inside
CMABRecommender.update_from_feedback (the .lower() is applied by the caller
of this helper). -/
def reward_map_get (ft : String) : ℚ :=
  if ft = "upvote" then 1
  else if ft = "downvote" then -1
  else if ft = "cooked" then 2
  else if ft = "skip" then 0
  else if ft = "ignored" then 0
  else 0

/-- The action-counter bump of update_from_feedback: exactly one of
cooked_count, upvote_count, downvote_count is incremented, or nothing for
other feedback types. Takes the already lowercased feedback type. -/
def bump_feedback_counter (s : CMABStats) (ft_lower : String) : CMABStats :=
  if ft_lower = "cooked" then
    ⟨s.alpha, s.beta, s.total_pulls, s.total_reward,
     s.cooked_count + 1, s.upvote_count, s.downvote_count⟩
  else if ft_lower = "upvote" then
    ⟨s.alpha, s.beta, s.total_pulls, s.total_reward,
     s.cooked_count, s.upvote_count + 1, s.downvote_count⟩
  else if ft_lower = "downvote" then
    ⟨s.alpha, s.beta, s.total_pulls, s.total_reward,
     s.cooked_count, s.upvote_count, s.downvote_count + 1⟩
  else s

/-- CMABRecommender.update_from_feedback(category, feedback_type, context):
its first statement indexes self.arm_stats[category] without a membership
guard, so an unknown category raises KeyError (modelled as none) before any
state change. On a known category it bumps the matching action counter and
then delegates to update with the mapped reward. -/
def CMABRecommender.update_from_feedback (m : CMABRecommender)
    (category : String) (feedback_type : String) : Option CMABRecommender :=
  if category ∈ RECIPE_CATEGORIES then
    let reward := reward_map_get (lowerStr feedback_type)
    let counted := bump_feedback_counter (m.arm_stats category)
      (lowerStr feedback_type)
    let m1 : CMABRecommender :=
      ⟨m.epsilon, m.cold_start_pulls, fun c =>
        if c = category then counted else m.arm_stats c⟩
    some (m1.update category reward)
  else none

/-- CMABRecommender.reset_arm(category): reinstall a fresh CMABStats under
an existing key; guarded by membership exactly as in the code. -/
def CMABRecommender.reset_arm (m : CMABRecommender) (category : String) :
    CMABRecommender :=
  if category ∈ RECIPE_CATEGORIES then
    ⟨m.epsilon, m.cold_start_pulls, fun c =>
      if c = category then CMABStats.init else m.arm_stats c⟩
  else m

/-- CMABRecommender.reset_all: reinstall a fresh CMABStats under every key
of arm_stats (i.e. every taxonomy category). -/
def CMABRecommender.reset_all (m : CMABRecommender) : CMABRecommender :=
  ⟨m.epsilon, m.cold_start_pulls, fun c =>
    if c ∈ RECIPE_CATEGORIES then CMABStats.init else m.arm_stats c⟩

/-- Modelled from the spec: convert_feedback_to_reward is defined in the
cmab_service module variant that also defines ThompsonSamplingCMAB and
RecipeCategory; that module is absent from the sources (only its callers
update_cmab_with_feedback, CMABCRUD and the tests are present). Spec 4.4:
is_cooked dominates with 2.0; otherwise upvote 1.0, downvote -1.0,
skip or anything else 0.0. -/
def convert_feedback_to_reward (feedback_type : String) (is_cooked : Bool) : ℚ :=
  if is_cooked then 2
  else if feedback_type = "upvote" then 1
  else if feedback_type = "downvote" then -1
  else 0

/-- CMABRecommender._is_cold_start: min of total_pulls over all arms is
below cold_start_pulls. The taxonomy is statically nonempty, so the Python
min never sees an empty sequence; the getD default is unreachable. -/
def CMABRecommender.is_cold_start (m : CMABRecommender) : Bool :=
  decide (((RECIPE_CATEGORIES.map fun c =>
    (m.arm_stats c).total_pulls).min?.getD 0) < m.cold_start_pulls)

/-- The exploration branch of select_arms: pair each available category with
its pull count, stable-sort ascending by pulls, return the first n_arms
category names. -/
def CMABRecommender.explore_branch (m : CMABRecommender) (n_arms : ℕ)
    (available : List String) : List String :=
  let pulls := (available.map fun cat => (cat, (m.arm_stats cat).total_pulls))
    |>.mergeSort (fun a b => decide (a.2 ≤ b.2))
  (pulls.take n_arms).map Prod.fst

/-- The Thompson Sampling branch of select_arms: pair each available
category with its sampled theta, stable-sort descending by theta, return
the first n_arms category names. The betavariate draws are the theta
parameter. -/
def CMABRecommender.thompson_branch (_m : CMABRecommender)
    (theta : String → ℚ) (n_arms : ℕ) (available : List String) :
    List String :=
  let sampled := (available.map fun cat => (cat, theta cat))
    |>.mergeSort (fun a b => decide (b.2 ≤ a.2))
  (sampled.take n_arms).map Prod.fst

/-- CMABRecommender.select_arms(context, n_arms, available_categories):
draw is the random.random() sample; the explore branch is taken exactly
when _is_cold_start() and draw < epsilon. The caller passes
RECIPE_CATEGORIES when available_categories is None. The context argument
is unused by the code paths below (it is reserved for the future
context_stats feature). -/
def CMABRecommender.select_arms (m : CMABRecommender) (draw : ℚ)
    (theta : String → ℚ) (n_arms : ℕ) (available : List String) :
    List String :=
  if m.is_cold_start = true ∧ draw < m.epsilon then
    m.explore_branch n_arms available
  else
    m.thompson_branch theta n_arms available

/-- States of CMABRecommender reachable from the constructor by the
in-memory mutators the claims quantify over: update, update_from_feedback
(when it does not raise), reset_arm and reset_all. -/
inductive Reachable : CMABRecommender → Prop
  | init (epsilon : ℚ) (cold_start_pulls : ℕ) :
      Reachable (CMABRecommender.init epsilon cold_start_pulls)
  | update (m : CMABRecommender) (category : String) (reward : ℚ) :
      Reachable m → Reachable (m.update category reward)
  | update_from_feedback (m m' : CMABRecommender) (category ft : String) :
      Reachable m → m.update_from_feedback category ft = some m' →
      Reachable m'
  | reset_arm (m : CMABRecommender) (category : String) :
      Reachable m → Reachable (m.reset_arm category)
  | reset_all (m : CMABRecommender) :
      Reachable m → Reachable m.reset_all

/-- CMABManager.save_recommender builds arms_data, a dict mapping every key
of arm_stats (the taxonomy) to the seven per-arm fields; this is the
serialized snapshot handed to CMABStatsCRUD.save_user_stats. The
updated_at timestamp is dropped (irrelevant to the studied claims). -/
def arms_data (m : CMABRecommender) : List (String × CMABStats) :=
  RECIPE_CATEGORIES.map fun c => (c, m.arm_stats c)

/-- One iteration of the restore loop of CMABManager._load_from_db: copy
the stored record for one category, guarded by category in
recommender.arm_stats exactly as in the code. -/
def restore_arm (r : CMABRecommender) (p : String × CMABStats) :
    CMABRecommender :=
  if p.1 ∈ RECIPE_CATEGORIES then
    ⟨r.epsilon, r.cold_start_pulls, fun c =>
      if c = p.1 then p.2 else r.arm_stats c⟩
  else r

/-- CMABManager._load_from_db: start from CMABRecommender() (defaults
epsilon=0.1, cold_start_pulls=10); when a stored record with an arms map
exists, copy the seven fields for every stored category that is a key of
the fresh arm_stats dict. -/
def load_from_db (stats_data : Option (List (String × CMABStats))) :
    CMABRecommender :=
  let base := CMABRecommender.init (1/10) 10
  match stats_data with
  | none => base
  | some arms => arms.foldl restore_arm base

/-- CMABManager state: the in-process _cache of recommenders and the
persistent store behind CMABStatsCRUD, both keyed by user id. -/
structure CMABManager where
  cache : String → Option CMABRecommender
  store : String → Option (List (String × CMABStats))

/-- CMABManager.save_recommender(user_id): early return when the user has
no cached recommender; otherwise serialize the cached model and upsert it
into the store. -/
def CMABManager.save_recommender (mgr : CMABManager) (user_id : String) :
    CMABManager :=
  match mgr.cache user_id with
  | none => mgr
  | some r =>
      ⟨mgr.cache, fun u =>
        if u = user_id then some (arms_data r) else mgr.store u⟩

/-- Modelled from the spec: the unified bandit model of spec section 3,
realized in the repository by ThompsonSamplingCMAB, whose defining module
is absent from the sources (only its callers CMABCRUD.get_or_create/save,
update_cmab_with_feedback and test_api.py are present). It keeps a
per-category arm map plus the model-level counter total_user_pulls. -/
structure ThompsonSamplingCMAB where
  categories : List String
  arms : String → CMABStats
  total_user_pulls : ℕ

/-- Modelled from the spec, section 4.3 update: silently ignore a category
outside the taxonomy; otherwise apply the same normalized-reward arm update
as CMABRecommender.update and additionally increment total_user_pulls on
the model. -/
def ThompsonSamplingCMAB.update (M : ThompsonSamplingCMAB)
    (category : String) (reward : ℚ) : ThompsonSamplingCMAB :=
  if category ∈ M.categories then
    let s := M.arms category
    let normalized := max 0 (min 1 ((reward + 1) / 3))
    ⟨M.categories, fun c =>
      if c = category then
        ⟨s.alpha + normalized, s.beta + (1 - normalized),
         s.total_pulls + 1, s.total_reward + reward,
         s.cooked_count, s.upvote_count, s.downvote_count⟩
      else M.arms c,
     M.total_user_pulls + 1⟩
  else M

/-- Character-list prefix test, building block for substring containment. -/
def charPrefix : List Char → List Char → Bool
  | [], _ => true
  | _ :: _, [] => false
  | a :: as, b :: bs => a = b && charPrefix as bs

/-- Character-list substring containment (needle occurs contiguously in the
haystack). -/
def charSubstr (needle : List Char) : List Char → Bool
  | [] => needle.isEmpty
  | c :: t => charPrefix needle (c :: t) || charSubstr needle t

/-- Case-insensitive substring containment on strings, the matching
primitive of spec section 4.1. -/
def substrMatch (needle hay : String) : Bool :=
  charSubstr (lowerStr needle).data (lowerStr hay).data

/-- Modelled from the spec: the keyword table owned by the category
taxonomy of RecipeCategory, whose defining module is absent from the
sources (only callers such as RecipeCategory.classify_recipe call sites in
recommendation_service.py, main.py and the mocks are present). Spec
section 3: a closed taxonomy, each category owning a static keyword list,
plus the catch-all general. -/
def CATEGORY_KEYWORDS : List (String × List String) :=
  [("italian", ["italian", "pasta", "pizza", "risotto", "lasagna"]),
   ("asian", ["asian", "chinese", "japanese", "thai", "curry", "stir fry"]),
   ("mexican", ["mexican", "taco", "burrito", "quesadilla"]),
   ("quick_meals", ["quick", "easy", "15-minute", "30-minute", "minute"]),
   ("healthy", ["healthy", "light", "fitness", "low calorie", "salad"]),
   ("dessert", ["dessert", "cake", "cookie", "sweet", "chocolate"]),
   ("breakfast", ["breakfast", "pancake", "omelette", "morning"]),
   ("comfort_food", ["comfort", "casserole", "stew", "mac and cheese"])]

/-- Modelled from the spec: one keyword matching a recipe, spec section
4.1 — case-insensitive substring containment in the title or in any tag. -/
def keyword_matches (keyword title : String) (tags : List String) : Bool :=
  substrMatch keyword title || tags.any (fun t => substrMatch keyword t)

/-- Modelled from the spec: RecipeCategory.classify_recipe(title, tags),
absent from the sources. Spec section 4.1: collect every category one of
whose keywords matches (multi-label); fall back to the singleton general
when nothing matches. -/
def classify_recipe (title : String) (tags : List String) : List String :=
  let matched := (CATEGORY_KEYWORDS.filter
    (fun p => p.2.any (fun k => keyword_matches k title tags))).map Prod.fst
  if matched.isEmpty then ["general"] else matched

example : convert_feedback_to_reward "downvote" true = 2 := by decide
example : convert_feedback_to_reward "skip" false = 0 := by decide
example : "italian" ∈ classify_recipe "Spaghetti Carbonara" ["italian", "pasta"] := by decide
example : classify_recipe "zzz qqq" [] = ["general"] := by decide

/-- The clamped normalized reward is nonnegative. -/
lemma normalized_nonneg (r : ℚ) : 0 ≤ max 0 (min 1 ((r + 1) / 3)) :=
  le_max_left _ _

/-- The clamped normalized reward is at most one. -/
lemma normalized_le_one (r : ℚ) : max 0 (min 1 ((r + 1) / 3)) ≤ 1 :=
  max_le (by norm_num) (min_le_left _ _)

/-- C1 (amended): calling update with a category outside the taxonomy is a
silent no-op — the model, and hence every real arm, is returned unchanged —
while calling update_from_feedback with such a category raises a KeyError
(result none) before any state change. -/
theorem update_unknown_category_noop (m : CMABRecommender)
    (category : String) (h : category ∉ RECIPE_CATEGORIES) (reward : ℚ)
    (feedback_type : String) :
    m.update category reward = m ∧
    (∀ c ∈ RECIPE_CATEGORIES,
      (m.update category reward).arm_stats c = m.arm_stats c) ∧
    m.update_from_feedback category feedback_type = none := by
  refine ⟨?_, ?_, ?_⟩
  · simp [CMABRecommender.update, h]
  · intro c _
    simp [CMABRecommender.update, h]
  · simp [CMABRecommender.update_from_feedback, h]

/-- Witness for C1 at the concrete category of spec Scenario E. -/
theorem update_unknown_category_noop_witness :
    (CMABRecommender.init (1/10) 10).update "nonexistent_category" 1
        = CMABRecommender.init (1/10) 10 ∧
    (∀ c ∈ RECIPE_CATEGORIES,
      ((CMABRecommender.init (1/10) 10).update "nonexistent_category" 1).arm_stats c
        = (CMABRecommender.init (1/10) 10).arm_stats c) ∧
    (CMABRecommender.init (1/10) 10).update_from_feedback
      "nonexistent_category" "upvote" = none :=
  update_unknown_category_noop (CMABRecommender.init (1/10) 10)
    "nonexistent_category" (by decide) 1 "upvote"

/-- Counterexample to C1 as stated: on the unknown category of spec
Scenario E, update_from_feedback indexes self.arm_stats[category] without a
guard (cmab_service.py line 253) and raises KeyError, modelled here by the
none result — it is not exception-free. -/
theorem update_from_feedback_unknown_raises :
    (CMABRecommender.init (1/10) 10).update_from_feedback
      "nonexistent_category" "upvote" = none := by
  simp [CMABRecommender.update_from_feedback, RECIPE_CATEGORIES]

/-- C2: the feedback-to-reward mapping returns 2.0 whenever is_cooked is
true regardless of feedback type, else 1.0 for upvote, -1.0 for downvote
and 0.0 for skip or anything else; it is a pure function (a Lean def with
no state). -/
theorem convert_feedback_to_reward_spec (feedback_type : String) :
    convert_feedback_to_reward feedback_type true = 2 ∧
    convert_feedback_to_reward "upvote" false = 1 ∧
    convert_feedback_to_reward "downvote" false = -1 ∧
    convert_feedback_to_reward "skip" false = 0 ∧
    (feedback_type ≠ "upvote" → feedback_type ≠ "downvote" →
      convert_feedback_to_reward feedback_type false = 0) := by
  refine ⟨rfl, rfl, rfl, rfl, ?_⟩
  intro h1 h2
  simp [convert_feedback_to_reward, h1, h2]

/-- Witness for C2 at a concrete non-upvote, non-downvote feedback type. -/
theorem convert_feedback_to_reward_spec_witness :
    convert_feedback_to_reward "ignored" true = 2 ∧
    convert_feedback_to_reward "ignored" false = 0 :=
  ⟨(convert_feedback_to_reward_spec "ignored").1,
   (convert_feedback_to_reward_spec "ignored").2.2.2.2 (by decide) (by decide)⟩

/-- C3: update on a taxonomy category adds the clamped normalized reward
max 0 (min 1 ((reward + 1) / 3)) to alpha and its complement to beta,
increments total_pulls by one and adds the raw reward to total_reward; on
the unified model (spec-modelled ThompsonSamplingCMAB) the model-level
total_user_pulls counter is also incremented. -/
theorem update_known_category_effect (m : CMABRecommender)
    (category : String) (h : category ∈ RECIPE_CATEGORIES) (reward : ℚ)
    (M : ThompsonSamplingCMAB) (hM : category ∈ M.categories) :
    ((m.update category reward).arm_stats category).alpha
      = (m.arm_stats category).alpha + max 0 (min 1 ((reward + 1) / 3)) ∧
    ((m.update category reward).arm_stats category).beta
      = (m.arm_stats category).beta + (1 - max 0 (min 1 ((reward + 1) / 3))) ∧
    ((m.update category reward).arm_stats category).total_pulls
      = (m.arm_stats category).total_pulls + 1 ∧
    ((m.update category reward).arm_stats category).total_reward
      = (m.arm_stats category).total_reward + reward ∧
    (M.update category reward).total_user_pulls = M.total_user_pulls + 1 := by
  refine ⟨?_, ?_, ?_, ?_, ?_⟩ <;>
    simp [CMABRecommender.update, ThompsonSamplingCMAB.update, h, hM]

/-- Witness for C3 at a concrete arm and the cooked reward. -/
theorem update_known_category_effect_witness :
    (((CMABRecommender.init (1/10) 10).update "italian" 2).arm_stats "italian").alpha
      = ((CMABRecommender.init (1/10) 10).arm_stats "italian").alpha
          + max 0 (min 1 (((2 : ℚ) + 1) / 3)) ∧
    ((ThompsonSamplingCMAB.mk RECIPE_CATEGORIES (fun _ => CMABStats.init) 0).update
      "italian" 2).total_user_pulls = 0 + 1 :=
  ⟨(update_known_category_effect (CMABRecommender.init (1/10) 10) "italian"
      (by decide) 2 ⟨RECIPE_CATEGORIES, fun _ => CMABStats.init, 0⟩ (by decide)).1,
   (update_known_category_effect (CMABRecommender.init (1/10) 10) "italian"
      (by decide) 2 ⟨RECIPE_CATEGORIES, fun _ => CMABStats.init, 0⟩ (by decide)).2.2.2.2⟩

/-- Bumping an action counter leaves alpha untouched. -/
lemma bump_feedback_counter_alpha (s : CMABStats) (ft : String) :
    (bump_feedback_counter s ft).alpha = s.alpha := by
  unfold bump_feedback_counter
  split <;> try rfl
  split <;> try rfl
  split <;> rfl

/-- Bumping an action counter leaves beta untouched. -/
lemma bump_feedback_counter_beta (s : CMABStats) (ft : String) :
    (bump_feedback_counter s ft).beta = s.beta := by
  unfold bump_feedback_counter
  split <;> try rfl
  split <;> try rfl
  split <;> rfl

/-- One update call preserves the lower bounds alpha ≥ 1 and beta ≥ 1 on
every arm: the clamped normalized reward lies in [0, 1], so neither shape
parameter decreases. -/
lemma update_preserves_bounds (m : CMABRecommender) (category : String)
    (reward : ℚ) (c : String)
    (h : 1 ≤ (m.arm_stats c).alpha ∧ 1 ≤ (m.arm_stats c).beta) :
    1 ≤ ((m.update category reward).arm_stats c).alpha ∧
    1 ≤ ((m.update category reward).arm_stats c).beta := by
  by_cases hcat : category ∈ RECIPE_CATEGORIES
  · by_cases hc : c = category
    · subst hc
      have h0 := normalized_nonneg reward
      have h1 := normalized_le_one reward
      refine ⟨?_, ?_⟩ <;> simp [CMABRecommender.update, hcat] <;>
        [linarith [h.1]; linarith [h.2]]
    · simpa [CMABRecommender.update, hcat, hc] using h
  · simpa [CMABRecommender.update, hcat] using h

/-- Every reachable recommender state keeps alpha ≥ 1 and beta ≥ 1 on every
arm. -/
lemma reachable_arm_bounds {m : CMABRecommender} (h : Reachable m)
    (c : String) :
    1 ≤ (m.arm_stats c).alpha ∧ 1 ≤ (m.arm_stats c).beta := by
  induction h with
  | init ε k => simp [CMABRecommender.init, CMABStats.init]
  | update m category reward hm ih =>
      exact update_preserves_bounds m category reward c ih
  | update_from_feedback m m' category ft hm heq ih =>
      by_cases hcat : category ∈ RECIPE_CATEGORIES
      · simp only [CMABRecommender.update_from_feedback, if_pos hcat,
          Option.some.injEq] at heq
        subst heq
        apply update_preserves_bounds
        by_cases hc : c = category
        · subst hc
          simpa [bump_feedback_counter_alpha, bump_feedback_counter_beta]
            using ih
        · simpa [hc] using ih
      · simp [CMABRecommender.update_from_feedback, hcat] at heq
  | reset_arm m category hm ih =>
      by_cases hcat : category ∈ RECIPE_CATEGORIES
      · by_cases hc : c = category
        · subst hc
          simp [CMABRecommender.reset_arm, hcat, CMABStats.init]
        · simpa [CMABRecommender.reset_arm, hcat, hc] using ih
      · simpa [CMABRecommender.reset_arm, hcat] using ih
  | reset_all m hm ih =>
      by_cases hc : c ∈ RECIPE_CATEGORIES
      · simp [CMABRecommender.reset_all, hc, CMABStats.init]
      · simpa [CMABRecommender.reset_all, hc] using ih

/-- C4: every arm of every reachable model state satisfies alpha ≥ 1 and
beta ≥ 1; the invariant holds with equality at initialization and is
preserved by update (any real reward), update_from_feedback, reset_arm and
reset_all, which generate the reachable states. -/
theorem arm_prior_invariant :
    (∀ (ε : ℚ) (k : ℕ) (c : String),
      ((CMABRecommender.init ε k).arm_stats c).alpha = 1 ∧
      ((CMABRecommender.init ε k).arm_stats c).beta = 1) ∧
    ∀ m : CMABRecommender, Reachable m → ∀ c : String,
      1 ≤ (m.arm_stats c).alpha ∧ 1 ≤ (m.arm_stats c).beta :=
  ⟨fun _ _ _ => ⟨rfl, rfl⟩, fun _ h c => reachable_arm_bounds h c⟩

/-- Witness for C4 on a freshly initialized model after one downvote. -/
theorem arm_prior_invariant_witness :
    1 ≤ (((CMABRecommender.init (1/10) 10).update "asian" (-1)).arm_stats "asian").alpha ∧
    1 ≤ (((CMABRecommender.init (1/10) 10).update "asian" (-1)).arm_stats "asian").beta :=
  arm_prior_invariant.2 _
    (Reachable.update _ "asian" (-1) (Reachable.init (1/10) 10)) "asian"
example :
    (CMABRecommender.init (1/10) 10).update_from_feedback
      "nonexistent_category" "upvote" = none := by
  simp [CMABRecommender.update_from_feedback, RECIPE_CATEGORIES]

/-- Pair-sort-project skeleton shared by both select_arms branches: pairing
each available category with a score, stable-sorting by score and keeping
the first n names yields exactly min n (length available) distinct names
from available. -/
lemma sort_take_fst_spec {β : Type} (available : List String)
    (g : String → β) (le : (String × β) → (String × β) → Bool) (n : ℕ)
    (hnd : available.Nodup) :
    ((((available.map fun c => (c, g c)).mergeSort le).take n).map
        Prod.fst).length = min n available.length ∧
    ((((available.map fun c => (c, g c)).mergeSort le).take n).map
        Prod.fst).Nodup ∧
    ∀ c ∈ (((available.map fun c => (c, g c)).mergeSort le).take n).map
        Prod.fst, c ∈ available := by
  have hperm : ((available.map fun c => (c, g c)).mergeSort le).Perm
      (available.map fun c => (c, g c)) := List.mergeSort_perm _ _
  have hid : (available.map fun c => (c, g c)).map Prod.fst = available := by
    simp [List.map_map, Function.comp_def]
  have hfst : (((available.map fun c => (c, g c)).mergeSort le).map
      Prod.fst).Perm available := by
    have h2 := hperm.map Prod.fst
    rwa [hid] at h2
  have hmaptake : ((((available.map fun c => (c, g c)).mergeSort le).take
      n).map Prod.fst)
      = (((available.map fun c => (c, g c)).mergeSort le).map
        Prod.fst).take n := by
    rw [List.map_take]
  refine ⟨?_, ?_, ?_⟩
  · rw [hmaptake, List.length_take, hfst.length_eq]
  · rw [hmaptake]
    exact (List.take_sublist _ _).nodup (hfst.symm.nodup hnd)
  · intro c hc
    rw [hmaptake] at hc
    exact hfst.mem_iff.mp ((List.take_sublist _ _).mem hc)

/-- C5: for every context (here: every random draw and every vector of
sampled thetas), every n and every duplicate-free list of taxonomy
categories, select_arms returns exactly min n (length available) distinct
categories drawn from available, in both the exploration branch and the
Thompson Sampling branch. -/
theorem select_arms_spec (m : CMABRecommender) (draw : ℚ)
    (theta : String → ℚ) (n_arms : ℕ) (available : List String)
    (hnd : available.Nodup)
    (_hsub : ∀ c ∈ available, c ∈ RECIPE_CATEGORIES) :
    (m.select_arms draw theta n_arms available).length
      = min n_arms available.length ∧
    (m.select_arms draw theta n_arms available).Nodup ∧
    ∀ c ∈ m.select_arms draw theta n_arms available, c ∈ available := by
  unfold CMABRecommender.select_arms
  split
  · exact sort_take_fst_spec available
      (fun cat => (m.arm_stats cat).total_pulls) _ n_arms hnd
  · exact sort_take_fst_spec available theta _ n_arms hnd

/-- Witness for C5 on a fresh model and a concrete 3-element pool. -/
theorem select_arms_spec_witness :
    ((CMABRecommender.init (1/10) 10).select_arms 0 (fun _ => 0) 2
        ["italian", "asian", "mexican"]).length
      = min 2 (["italian", "asian", "mexican"] : List String).length ∧
    ((CMABRecommender.init (1/10) 10).select_arms 0 (fun _ => 0) 2
        ["italian", "asian", "mexican"]).Nodup ∧
    ∀ c ∈ (CMABRecommender.init (1/10) 10).select_arms 0 (fun _ => 0) 2
        ["italian", "asian", "mexican"],
      c ∈ (["italian", "asian", "mexican"] : List String) :=
  select_arms_spec _ 0 _ 2 _ (by decide) (by decide)

/-- Folding min over a list of naturals goes below k exactly when the seed
or some element does. -/
lemma foldl_min_lt_iff (k : ℕ) (l : List ℕ) :
    ∀ a : ℕ, (l.foldl min a < k ↔ a < k ∨ ∃ x ∈ l, x < k) := by
  induction l with
  | nil => simp
  | cons b t ih =>
      intro a
      rw [List.foldl_cons, ih (min a b), min_lt_iff]
      simp only [List.mem_cons]
      constructor
      · rintro ((h | h) | ⟨x, hx, hxk⟩)
        · exact Or.inl h
        · exact Or.inr ⟨b, Or.inl rfl, h⟩
        · exact Or.inr ⟨x, Or.inr hx, hxk⟩
      · rintro (h | ⟨x, (rfl | hx), hxk⟩)
        · exact Or.inl (Or.inl h)
        · exact Or.inl (Or.inr hxk)
        · exact Or.inr ⟨x, hx, hxk⟩

/-- The Python min over a nonempty mapped list is below k exactly when some
element maps below k. -/
lemma min_map_lt_iff (l : List String) (hne : l ≠ []) (g : String → ℕ)
    (k : ℕ) : ((l.map g).min?.getD 0 < k) ↔ ∃ c ∈ l, g c < k := by
  cases l with
  | nil => exact absurd rfl hne
  | cons a t =>
      rw [List.map_cons, List.min?_cons', Option.getD_some,
        foldl_min_lt_iff]
      simp only [List.mem_cons, List.mem_map]
      constructor
      · rintro (h | ⟨x, ⟨c, hc, rfl⟩, hxk⟩)
        · exact ⟨a, Or.inl rfl, h⟩
        · exact ⟨c, Or.inr hc, hxk⟩
      · rintro ⟨c, (rfl | hc), hck⟩
        · exact Or.inl hck
        · exact Or.inr ⟨g c, ⟨c, hc, rfl⟩, hck⟩

/-- C7: the cold-start indicator is true exactly while some taxonomy arm
has total_pulls below the threshold (default 10); once it is false, the
selection result is the Thompson Sampling branch for every random draw —
epsilon exploration is no longer applied. -/
theorem cold_start_spec (m : CMABRecommender)
    (hk : m.cold_start_pulls = 10) :
    (m.is_cold_start = true ↔
      ∃ c ∈ RECIPE_CATEGORIES, (m.arm_stats c).total_pulls < 10) ∧
    (m.is_cold_start = false →
      ∀ (draw : ℚ) (theta : String → ℚ) (n_arms : ℕ)
        (available : List String),
        m.select_arms draw theta n_arms available
          = m.thompson_branch theta n_arms available) := by
  constructor
  · rw [CMABRecommender.is_cold_start, decide_eq_true_eq, hk]
    exact min_map_lt_iff RECIPE_CATEGORIES (by decide) _ 10
  · intro hfalse draw theta n_arms available
    unfold CMABRecommender.select_arms
    rw [if_neg]
    rintro ⟨h1, _⟩
    rw [hfalse] at h1
    exact Bool.false_ne_true h1

/-- Witness for C7 on a freshly initialized model with the default
threshold. -/
theorem cold_start_spec_witness :
    ((CMABRecommender.init (1/10) 10).is_cold_start = true ↔
      ∃ c ∈ RECIPE_CATEGORIES,
        (((CMABRecommender.init (1/10) 10).arm_stats c)).total_pulls < 10) ∧
    ((CMABRecommender.init (1/10) 10).is_cold_start = false →
      ∀ (draw : ℚ) (theta : String → ℚ) (n_arms : ℕ)
        (available : List String),
        (CMABRecommender.init (1/10) 10).select_arms draw theta n_arms
            available
          = (CMABRecommender.init (1/10) 10).thompson_branch theta n_arms
              available) :=
  cold_start_spec (CMABRecommender.init (1/10) 10) rfl

/-- One update call with the cooked reward 2.0 on a taxonomy category adds
exactly one to alpha (the clamped normalized reward is 1) and leaves beta
unchanged. -/
lemma cooked_update_arm (s : CMABRecommender) (category : String)
    (h : category ∈ RECIPE_CATEGORIES) :
    ((s.update category 2).arm_stats category).alpha
      = (s.arm_stats category).alpha + 1 ∧
    ((s.update category 2).arm_stats category).beta
      = (s.arm_stats category).beta := by
  constructor <;> simp [CMABRecommender.update, h] <;> norm_num

/-- Iterating update with the cooked reward 2.0 on a taxonomy category adds
exactly k to alpha and leaves beta unchanged. -/
lemma iterate_cooked_update_arm (m : CMABRecommender) (category : String)
    (h : category ∈ RECIPE_CATEGORIES) (k : ℕ) :
    (((fun s => CMABRecommender.update s category 2)^[k] m).arm_stats
        category).alpha = (m.arm_stats category).alpha + k ∧
    (((fun s => CMABRecommender.update s category 2)^[k] m).arm_stats
        category).beta = (m.arm_stats category).beta := by
  induction k with
  | zero => simp
  | succ k ih =>
      simp only [Function.iterate_succ_apply']
      have hstep := cooked_update_arm
        ((fun s => CMABRecommender.update s category 2)^[k] m) category h
      constructor
      · rw [hstep.1, ih.1]
        push_cast
        ring
      · rw [hstep.2, ih.2]

/-- C6: from any reachable state, each successive update with reward 2.0 on
a taxonomy category strictly increases that arm's mean alpha/(alpha+beta);
the mean stays strictly below 1 after any finite number of such calls, and
it approaches 1: it eventually exceeds 1 - ε for every positive ε. -/
theorem repeated_cooked_update_mean (m : CMABRecommender)
    (hm : Reachable m) (category : String)
    (hc : category ∈ RECIPE_CATEGORIES) :
    (∀ k : ℕ,
      (((fun s => CMABRecommender.update s category 2)^[k] m).arm_stats
          category).get_mean
        < (((fun s => CMABRecommender.update s category 2)^[k + 1]
            m).arm_stats category).get_mean) ∧
    (∀ k : ℕ,
      (((fun s => CMABRecommender.update s category 2)^[k] m).arm_stats
          category).get_mean < 1) ∧
    (∀ ε : ℚ, 0 < ε → ∃ k : ℕ,
      1 - ε < (((fun s => CMABRecommender.update s category 2)^[k]
          m).arm_stats category).get_mean) := by
  obtain ⟨ha, hb⟩ := reachable_arm_bounds hm category
  have hmean : ∀ k : ℕ,
      (((fun s => CMABRecommender.update s category 2)^[k] m).arm_stats
          category).get_mean
        = ((m.arm_stats category).alpha + k)
            / ((m.arm_stats category).alpha + k
                + (m.arm_stats category).beta) := by
    intro k
    obtain ⟨h1, h2⟩ := iterate_cooked_update_arm m category hc k
    rw [CMABStats.get_mean, h1, h2]
  refine ⟨?_, ?_, ?_⟩
  · intro k
    rw [hmean k, hmean (k + 1)]
    have hk0 : (0 : ℚ) ≤ k := Nat.cast_nonneg k
    have hd1 : 0 < (m.arm_stats category).alpha + k
        + (m.arm_stats category).beta := by linarith
    have hd2 : 0 < (m.arm_stats category).alpha + (k + 1 : ℕ)
        + (m.arm_stats category).beta := by push_cast; linarith
    rw [div_lt_div_iff₀ hd1 hd2]
    push_cast
    nlinarith [hb, hk0]
  · intro k
    rw [hmean k]
    have hk0 : (0 : ℚ) ≤ k := Nat.cast_nonneg k
    have hd : 0 < (m.arm_stats category).alpha + k
        + (m.arm_stats category).beta := by linarith
    rw [div_lt_one hd]
    linarith
  · intro ε hε
    refine ⟨⌈(m.arm_stats category).beta / ε⌉₊ + 1, ?_⟩
    rw [hmean (⌈(m.arm_stats category).beta / ε⌉₊ + 1)]
    have hceil : ((m.arm_stats category).beta / ε : ℚ)
        ≤ ⌈(m.arm_stats category).beta / ε⌉₊ := Nat.le_ceil _
    have hklt : (m.arm_stats category).beta / ε
        < ((⌈(m.arm_stats category).beta / ε⌉₊ + 1 : ℕ) : ℚ) := by
      push_cast
      linarith
    have hβk : (m.arm_stats category).beta
        < ε * ((⌈(m.arm_stats category).beta / ε⌉₊ + 1 : ℕ) : ℚ) := by
      rw [div_lt_iff₀ hε] at hklt
      linarith [mul_comm ε ((⌈(m.arm_stats category).beta / ε⌉₊ + 1 : ℕ) : ℚ)]
    have hk0 : (0 : ℚ) ≤ ((⌈(m.arm_stats category).beta / ε⌉₊ + 1 : ℕ) : ℚ) :=
      Nat.cast_nonneg _
    have hd : 0 < (m.arm_stats category).alpha
        + ((⌈(m.arm_stats category).beta / ε⌉₊ + 1 : ℕ) : ℚ)
        + (m.arm_stats category).beta := by linarith
    rw [lt_div_iff₀ hd]
    nlinarith [hβk, mul_pos hε (show (0 : ℚ) < (m.arm_stats category).alpha
      + (m.arm_stats category).beta by linarith)]

/-- Witness for C6: the first cooked update on a fresh model strictly
increases the mean of the italian arm. -/
theorem repeated_cooked_update_mean_witness :
    (((fun s => CMABRecommender.update s "italian" 2)^[0]
        (CMABRecommender.init (1/10) 10)).arm_stats "italian").get_mean
      < (((fun s => CMABRecommender.update s "italian" 2)^[0 + 1]
          (CMABRecommender.init (1/10) 10)).arm_stats "italian").get_mean :=
  (repeated_cooked_update_mean (CMABRecommender.init (1/10) 10)
      (Reachable.init (1/10) 10) "italian" (by decide)).1 0

/-- C8: classification always yields a nonempty category list; when no
keyword of any category matches the title or a tag the result is exactly
the singleton general, and every matching category appears in the result
(so several categories can be returned at once). -/
theorem classify_recipe_spec (title : String) (tags : List String) :
    classify_recipe title tags ≠ [] ∧
    ((∀ p ∈ CATEGORY_KEYWORDS, ∀ k ∈ p.2,
        keyword_matches k title tags = false) →
      classify_recipe title tags = ["general"]) ∧
    (∀ c : String,
      (∃ p ∈ CATEGORY_KEYWORDS, p.1 = c ∧ ∃ k ∈ p.2,
        keyword_matches k title tags = true) →
      c ∈ classify_recipe title tags) := by
  have hdef : classify_recipe title tags
      = if ((CATEGORY_KEYWORDS.filter (fun p => p.2.any fun k =>
              keyword_matches k title tags)).map Prod.fst).isEmpty = true
        then ["general"]
        else (CATEGORY_KEYWORDS.filter (fun p => p.2.any fun k =>
              keyword_matches k title tags)).map Prod.fst := rfl
  by_cases hempty : ((CATEGORY_KEYWORDS.filter (fun p => p.2.any fun k =>
      keyword_matches k title tags)).map Prod.fst).isEmpty = true
  · refine ⟨?_, ?_, ?_⟩
    · rw [hdef, if_pos hempty]
      simp
    · intro _
      rw [hdef, if_pos hempty]
    · intro c ⟨p, hp, hpc, k, hk, hmatch⟩
      exfalso
      have hmem : p ∈ CATEGORY_KEYWORDS.filter (fun p => p.2.any fun k =>
          keyword_matches k title tags) := by
        rw [List.mem_filter]
        exact ⟨hp, List.any_eq_true.mpr ⟨k, hk, hmatch⟩⟩
      have : p.1 ∈ (CATEGORY_KEYWORDS.filter (fun p => p.2.any fun k =>
          keyword_matches k title tags)).map Prod.fst :=
        List.mem_map_of_mem Prod.fst hmem
      rw [List.isEmpty_iff] at hempty
      rw [hempty] at this
      exact List.not_mem_nil p.1 this
  · refine ⟨?_, ?_, ?_⟩
    · rw [hdef, if_neg hempty]
      intro hnil
      exact hempty (by rw [List.isEmpty_iff, hnil])
    · intro hall
      exfalso
      apply hempty
      rw [List.isEmpty_iff, List.map_eq_nil_iff, List.filter_eq_nil_iff]
      intro p hp
      rw [List.any_eq_true]
      rintro ⟨k, hk, hmatch⟩
      rw [hall p hp k hk] at hmatch
      exact Bool.false_ne_true hmatch
    · intro c ⟨p, hp, hpc, k, hk, hmatch⟩
      rw [hdef, if_neg hempty]
      refine List.mem_map.mpr ⟨p, ?_, hpc⟩
      rw [List.mem_filter]
      exact ⟨hp, List.any_eq_true.mpr ⟨k, hk, hmatch⟩⟩

/-- Witness for C8: a no-match title falls back to general, and the recipe
of spec Scenario C is classified as italian. -/
theorem classify_recipe_spec_witness :
    classify_recipe "zzz qqq" [] = ["general"] ∧
    "italian" ∈ classify_recipe "Spaghetti Carbonara" ["italian", "pasta"] :=
  ⟨(classify_recipe_spec "zzz qqq" []).2.1 (by decide),
   (classify_recipe_spec "Spaghetti Carbonara" ["italian", "pasta"]).2.2
     "italian" (by decide)⟩

/-- Restoring a list of arm records never touches a category that is not
among its keys. -/
lemma foldl_restore_not_mem (l : List (String × CMABStats)) (c : String)
    (h : c ∉ l.map Prod.fst) :
    ∀ base : CMABRecommender,
      (l.foldl restore_arm base).arm_stats c = base.arm_stats c := by
  induction l with
  | nil => intro base; rfl
  | cons p t ih =>
      intro base
      simp only [List.map_cons, List.mem_cons, not_or] at h
      rw [List.foldl_cons, ih h.2]
      unfold restore_arm
      split
      · simp [h.1]
      · rfl

/-- Restoring a list of arm records with distinct keys installs exactly the
stored record for each taxonomy key it contains. -/
lemma foldl_restore_mem (l : List (String × CMABStats)) (c : String)
    (r : CMABStats) (hmem : (c, r) ∈ l) (hnd : (l.map Prod.fst).Nodup)
    (hc : c ∈ RECIPE_CATEGORIES) :
    ∀ base : CMABRecommender, (l.foldl restore_arm base).arm_stats c = r := by
  induction l with
  | nil => cases hmem
  | cons p t ih =>
      intro base
      rw [List.map_cons, List.nodup_cons] at hnd
      rw [List.foldl_cons]
      rcases List.mem_cons.mp hmem with heq | htail
      · subst heq
        have hnotin : c ∉ t.map Prod.fst := hnd.1
        rw [foldl_restore_not_mem t c hnotin]
        unfold restore_arm
        rw [if_pos hc]
        simp
      · exact ih htail hnd.2 _

/-- C9: reloading the serialized snapshot produced by save_recommender
reproduces the full arm record of every taxonomy category — alpha, beta,
total_pulls, total_reward and the cooked/upvote/downvote counters. -/
theorem serialization_round_trip (m : CMABRecommender) (c : String)
    (hc : c ∈ RECIPE_CATEGORIES) :
    (load_from_db (some (arms_data m))).arm_stats c = m.arm_stats c := by
  have hload : load_from_db (some (arms_data m))
      = (arms_data m).foldl restore_arm (CMABRecommender.init (1/10) 10) :=
    rfl
  rw [hload]
  refine foldl_restore_mem _ c (m.arm_stats c) ?_ ?_ hc _
  · exact List.mem_map_of_mem _ hc
  · have hkeys : ((RECIPE_CATEGORIES.map fun c => (c, m.arm_stats c)).map
        Prod.fst) = RECIPE_CATEGORIES := by
      simp [List.map_map, Function.comp_def]
    unfold arms_data
    rw [hkeys]
    decide

/-- Witness for C9 on a model that recorded one cooked update. -/
theorem serialization_round_trip_witness :
    (load_from_db (some (arms_data
        ((CMABRecommender.init (1/10) 10).update "italian" 2)))).arm_stats
      "italian"
      = (((CMABRecommender.init (1/10) 10).update "italian" 2)).arm_stats
        "italian" :=
  serialization_round_trip ((CMABRecommender.init (1/10) 10).update
    "italian" 2) "italian" (by decide)

/-- C10: saving a user whose model is absent from the in-process cache is a
silent no-op: the whole manager state — persistent store and cache — is
returned unchanged, no model is created, and no error is raised (the
operation is a total function on the manager state). -/
theorem save_uncached_noop (mgr : CMABManager) (user_id : String)
    (h : mgr.cache user_id = none) :
    mgr.save_recommender user_id = mgr := by
  simp [CMABManager.save_recommender, h]

/-- Witness for C10 on an empty manager. -/
theorem save_uncached_noop_witness :
    CMABManager.save_recommender ⟨fun _ => none, fun _ => none⟩ "alice"
      = (⟨fun _ => none, fun _ => none⟩ : CMABManager) :=
  save_uncached_noop ⟨fun _ => none, fun _ => none⟩ "alice" rfl
